import Mathlib

/-!
Verification of the request-admission and slot-scheduling core of the
sub2api gateway.

The definitions below are shallow embeddings of the Go code and of the
Lua scripts executed atomically on Redis:

* `acquireSlot` embeds `acquireScript` (identity_cache.go): the ordered-set
  slot acquire with expiry cleanup and a concurrency cap.
* `incrementWait` / `decrementWait` embed `incrementWaitScript` /
  `decrementWaitScript`.
* `acquireSessionMutex` / `releaseSessionMutex` embed the session-mutex
  scripts (`SET NX EX` and compare-and-delete).
* `acquireSlotWithSession` embeds `acquireSlotWithSessionScript`, the
  per-slot session-aware acquire used by the model scheduler.
* `CalculateTotalSlots`, `CalculateModelSlotRange`, `hashToSlotIndex`,
  `maxParallelFor`, `modelSlotRangeFor` and `acquireSessionSlot` embed
  the corresponding functions of concurrency_service.go.
* `GetModelCategory` / `containsSubstring` embed the model classifier.
* `waitForRPMSlot` embeds the wait decision of `WaitForRPMSlot`.
* `mapUpstreamError` and `messagesFailoverLoop` embed the gateway
  handler's upstream-error mapping and failover loop skeleton.

Session hashes and model names are byte strings in Go; they are modelled
as their byte sequences (`List Nat`).  Machine integers stay well inside
64 bits everywhere, so `Nat`/`Int` model Go `int` faithfully.
-/

/-- Bytes of an ASCII string literal, used to write concrete session
hashes and model names in examples. -/
def strBytes (s : String) : List Nat :=
  s.data.map Char.toNat

/-! ## Slot-pool sizing (concurrency_service.go) -/

/-- `CalculateTotalSlots` (concurrency_service.go): total slot positions
for a concurrency limit, `(concurrency*4 + 2) / 3` with a guard for
non-positive input. -/
def CalculateTotalSlots (concurrency : Int) : Int :=
  if concurrency ≤ 0 then 0
  else (concurrency * 4 + 2) / 3

/-- `ModelSlotRange` (concurrency_service.go): a half-open slot range. -/
structure ModelSlotRange where
  start : Int
  stop : Int
deriving Repr, DecidableEq

/-- `CalculateModelSlotRange` (concurrency_service.go): the opus and
sonnet ranges for a given total slot count. -/
def CalculateModelSlotRange (totalSlots : Int) : ModelSlotRange × ModelSlotRange :=
  if totalSlots ≤ 0 then (⟨0, 0⟩, ⟨0, 0⟩)
  else if totalSlots = 1 then (⟨0, 1⟩, ⟨0, 1⟩)
  else
    let opusSlots0 := totalSlots / 2
    let opusSlots1 := if opusSlots0 < 1 then 1 else opusSlots0
    let opusSlots := if opusSlots1 ≥ totalSlots then totalSlots - 1 else opusSlots1
    (⟨0, opusSlots⟩, ⟨opusSlots, totalSlots⟩)

/-- `hashToSlotIndex` (concurrency_service.go): sum of the session-hash
bytes modulo the range size, with a guard for non-positive size.
All operands are non-negative, where Go's truncated `/`, `%` and Lean's
`Int.ediv`, `Int.emod` coincide. -/
def hashToSlotIndex (sessionHash : List Nat) (maxConcurrency : Int) : Int :=
  if maxConcurrency ≤ 0 then 0
  else (sessionHash.foldl (fun acc b => acc + (b : Int)) 0) % maxConcurrency

/-! ## The acquire script on ordered slot sets (identity_cache.go) -/

/-- State of one ordered-set key `concurrency:account:{id}` or
`concurrency:user:{id}`: members with integer-second scores, plus the
key's TTL as last set by `EXPIRE` (`none` = no TTL recorded). -/
structure ZSet where
  members : List (String × Nat)
  ttl : Option Nat
deriving Repr, DecidableEq

/-- `ZSCORE key member`: the member's score, or `none` when absent. -/
def zscoreOf : List (String × Nat) → String → Option Nat
  | [], _ => none
  | (k, v) :: t, m => if k = m then some v else zscoreOf t m

/-- `ZADD key score member`: update the score if the member exists,
append it otherwise. -/
def zadd (l : List (String × Nat)) (m : String) (sc : Nat) : List (String × Nat) :=
  if (zscoreOf l m).isSome then
    l.map (fun p => if p.1 = m then (m, sc) else p)
  else l ++ [(m, sc)]

/-- `ZREMRANGEBYSCORE key -inf expireBefore`: drop members with score
`≤ expireBefore`.  `expireBefore = now - ttl` can be negative in Lua,
hence the `Int` comparison. -/
def zcleanup (l : List (String × Nat)) (expireBefore : Int) : List (String × Nat) :=
  l.filter (fun p => decide (expireBefore < (p.2 : Int)))

/-- `acquireScript` (identity_cache.go): cleanup, refresh an existing
member, otherwise admit iff the cardinality is below `maxConcurrency`;
`EXPIRE key ttl` on every success. -/
def acquireSlot (z : ZSet) (now ttlArg : Nat) (maxConcurrency : Int)
    (requestID : String) : Bool × ZSet :=
  let cleaned := zcleanup z.members ((now : Int) - (ttlArg : Int))
  if (zscoreOf cleaned requestID).isSome then
    (true, ⟨zadd cleaned requestID now, some ttlArg⟩)
  else if (cleaned.length : Int) < maxConcurrency then
    (true, ⟨zadd cleaned requestID now, some ttlArg⟩)
  else
    (false, ⟨cleaned, z.ttl⟩)

/-! ## Wait-queue counters (identity_cache.go) -/

/-- State of a wait-counter key: its integer value (`none` = key absent)
and its TTL as last set (`none` = no TTL). -/
structure WaitCounter where
  value : Option Nat
  ttl : Option Nat
deriving Repr, DecidableEq

/-- `incrementWaitScript` (identity_cache.go): reject when the current
value (0 for an absent key) has reached `maxWait`; otherwise `INCR`,
and `EXPIRE` only when the incremented value is 1. -/
def incrementWait (st : WaitCounter) (maxWait ttlArg : Nat) : Bool × WaitCounter :=
  let current := st.value.getD 0
  if maxWait ≤ current then (false, st)
  else
    let newVal := current + 1
    (true, ⟨some newVal, if newVal = 1 then some ttlArg else st.ttl⟩)

/-- `decrementWaitScript` (identity_cache.go): `DECR` only when the key
exists with a positive value. -/
def decrementWait (st : WaitCounter) : WaitCounter :=
  match st.value with
  | some v => if 0 < v then ⟨some (v - 1), st.ttl⟩ else st
  | none => st

/-! ## Session mutex (identity_cache.go) -/

/-- `acquireSessionMutexScript`: `SET key requestID NX EX ttl` — the
state of the key `session_mutex:{account}:{session}` is the holder's
requestID, or `none` when unheld. -/
def acquireSessionMutex (holder : Option String) (requestID : String) :
    Bool × Option String :=
  match holder with
  | none => (true, some requestID)
  | some h => (false, some h)

/-- `releaseSessionMutexScript`: `GET` then `DEL` iff the stored value
equals the caller's requestID. -/
def releaseSessionMutex (holder : Option String) (requestID : String) :
    Option String :=
  match holder with
  | some h => if h = requestID then none else some h
  | none => none

/-! ## Session-aware slot acquire (identity_cache.go) -/

/-- The hash `slot_owner:{account}:{slot}`: owning session (as bytes),
holder count, and the script-managed expiry timestamp. -/
structure OwnerRec where
  owner : List Nat
  count : Nat
  expire : Nat
deriving Repr, DecidableEq

/-- Per-account slot state seen by the session scheduler: the owner
hashes, the `slot_{i}` memberships of `concurrency:account:{id}` (score
= last touch), and the `session_slot:{account}:{session}` bindings. -/
structure SessState where
  owners : Int → Option OwnerRec
  zscore : Int → Option Nat
  binding : List Nat → Option Int

/-- Write one owner hash. -/
def SessState.setOwner (st : SessState) (slot : Int) (r : Option OwnerRec) : SessState :=
  { st with owners := fun s => if s = slot then r else st.owners s }

/-- Write one `slot_{i}` membership score (`none` = `ZREM`). -/
def SessState.setZ (st : SessState) (slot : Int) (v : Option Nat) : SessState :=
  { st with zscore := fun s => if s = slot then v else st.zscore s }

/-- `SetSessionSlot`: bind a session to a slot. -/
def setSessionSlot (st : SessState) (sessionHash : List Nat) (slot : Int) : SessState :=
  { st with binding := fun s => if s = sessionHash then some slot else st.binding s }

/-- `acquireSlotWithSessionScript` (identity_cache.go): read the owner
hash; clean it up when expired; a free slot is claimed (count 1) unless
the ordered set still marks it occupied; the owning session may
increment its count below `maxParallel`; any other session fails. -/
def acquireSlotWithSession (st : SessState) (now ttlArg : Nat) (slotIndex : Int)
    (sessionHash : List Nat) (maxParallel : Nat) : Bool × SessState :=
  let cleaned :=
    match st.owners slotIndex with
    | some r =>
        if 0 < r.expire ∧ r.expire < now then
          (st.setOwner slotIndex none).setZ slotIndex none
        else st
    | none => st
  match cleaned.owners slotIndex with
  | none =>
      if (cleaned.zscore slotIndex).isSome then (false, cleaned)
      else
        (true,
          (cleaned.setOwner slotIndex (some ⟨sessionHash, 1, now + ttlArg⟩)).setZ
            slotIndex (some now))
  | some r =>
      if r.count = 0 then
        -- Lua case 1 also fires when the stored count is 0
        if (cleaned.zscore slotIndex).isSome then (false, cleaned)
        else
          (true,
            (cleaned.setOwner slotIndex (some ⟨sessionHash, 1, now + ttlArg⟩)).setZ
              slotIndex (some now))
      else if r.owner = sessionHash then
        if r.count < maxParallel then
          (true,
            (cleaned.setOwner slotIndex
                (some ⟨r.owner, r.count + 1, now + ttlArg⟩)).setZ slotIndex (some now))
        else (false, cleaned)
      else (false, cleaned)

/-! ## The session slot scheduler (concurrency_service.go) -/

/-- The per-category range switch inside `AcquireSessionSlot`: opus and
sonnet take their halves, haiku and unrecognized categories take the
whole pool. -/
def modelSlotRangeFor (modelCategory : String) (totalSlots : Int) : ModelSlotRange :=
  match modelCategory with
  | "opus" => (CalculateModelSlotRange totalSlots).1
  | "sonnet" => (CalculateModelSlotRange totalSlots).2
  | _ => ⟨0, totalSlots⟩

/-- The `maxParallel` computation inside `AcquireSessionSlot`: 9999 for
haiku and unrecognized categories, 1 (strictly serial) otherwise. -/
def maxParallelFor (modelCategory : String) : Nat :=
  if modelCategory = "haiku" ∨ modelCategory = "" then 9999 else 1

/-- Result of `AcquireSessionSlot` (release handle omitted). -/
structure SessionSlotResult where
  acquired : Bool
  slotIndex : Int
deriving Repr, DecidableEq

/-- The rotational fallback loop of `AcquireSessionSlot`
(`for offset := 1; offset < rangeSize; offset++`), threading the store
state through failed attempts (a failed attempt may still clean an
expired record). -/
def fallbackScan (now ttlArg : Nat) (sessionHash : List Nat) (maxParallel : Nat)
    (rangeStart rangeSize targetSlotInRange : Int) :
    Nat → Int → SessState → Option Int × SessState
  | 0, _, st => (none, st)
  | remaining + 1, offset, st =>
      let fallbackSlot := rangeStart + (targetSlotInRange + offset) % rangeSize
      let res := acquireSlotWithSession st now ttlArg fallbackSlot sessionHash maxParallel
      if res.1 then (some fallbackSlot, setSessionSlot res.2 sessionHash fallbackSlot)
      else
        fallbackScan now ttlArg sessionHash maxParallel rangeStart rangeSize
          targetSlotInRange remaining (offset + 1) res.2

/-- Steps 3–6 of `AcquireSessionSlot`: hash target inside the range,
then the rotational fallback; on failure the target index is reported
for the wait loop. -/
def acquireSessionSlotScan (now ttlArg : Nat) (sessionHash : List Nat)
    (maxParallel : Nat) (rangeStart rangeSize : Int) (st : SessState) :
    SessionSlotResult × SessState :=
  let targetSlotInRange := hashToSlotIndex sessionHash rangeSize
  let targetSlot := rangeStart + targetSlotInRange
  let res := acquireSlotWithSession st now ttlArg targetSlot sessionHash maxParallel
  if res.1 then (⟨true, targetSlot⟩, setSessionSlot res.2 sessionHash targetSlot)
  else
    match fallbackScan now ttlArg sessionHash maxParallel rangeStart rangeSize
        targetSlotInRange (rangeSize - 1).toNat 1 res.2 with
    | (some slot, stF) => (⟨true, slot⟩, stF)
    | (none, stF) => (⟨false, targetSlot⟩, stF)

/-- `AcquireSessionSlot` (concurrency_service.go): no-limit fast path,
model-pool range, bound-slot preference, then the target/fallback scan
(`acquireSessionSlotScan`), and the all-full failure carrying the
target index. -/
def acquireSessionSlot (st : SessState) (now ttlArg : Nat) (maxConcurrency : Int)
    (sessionHash : List Nat) (modelCategory : String) : SessionSlotResult × SessState :=
  if maxConcurrency ≤ 0 then (⟨true, -1⟩, st)
  else
    let totalSlots := CalculateTotalSlots maxConcurrency
    let r := modelSlotRangeFor modelCategory totalSlots
    let rangeSize := r.stop - r.start
    if rangeSize ≤ 0 then (⟨false, -1⟩, st)
    else
      let maxParallel := maxParallelFor modelCategory
      let boundSlot := (st.binding sessionHash).getD (-1)
      if 0 ≤ boundSlot then
        if r.start ≤ boundSlot ∧ boundSlot < r.stop then
          let res := acquireSlotWithSession st now ttlArg boundSlot sessionHash maxParallel
          if res.1 then (⟨true, boundSlot⟩, res.2)
          else acquireSessionSlotScan now ttlArg sessionHash maxParallel r.start rangeSize res.2
        else acquireSessionSlotScan now ttlArg sessionHash maxParallel r.start rangeSize st
      else acquireSessionSlotScan now ttlArg sessionHash maxParallel r.start rangeSize st

/-- Number of occupied slot positions among `[0, totalSlots)` — the
`ZCARD` the load queries report when all members are `slot_{i}`
entries. -/
def occupiedCount (st : SessState) (totalSlots : Int) : Nat :=
  ((Finset.Icc 0 (totalSlots - 1)).filter (fun s => (st.zscore s).isSome)).card

/-- The empty per-account slot state. -/
def sessInit : SessState :=
  ⟨fun _ => none, fun _ => none, fun _ => none⟩

/-! ## Model classification (concurrency helper) -/

/-- `containsSubstring` (concurrency helper): the Go index loop
`s[i:i+len(substr)] == substr` over the byte string. -/
def containsSubstring (s substr : List Nat) : Bool :=
  if s.length < substr.length then false
  else
    (List.range (s.length - substr.length + 1)).any
      (fun i => (s.drop i).take substr.length == substr)

/-- `GetModelCategory` (concurrency helper): first match among the
substrings "opus", "sonnet", "haiku"; empty string otherwise. -/
def GetModelCategory (model : List Nat) : String :=
  if containsSubstring model (strBytes "opus") then "opus"
  else if containsSubstring model (strBytes "sonnet") then "sonnet"
  else if containsSubstring model (strBytes "haiku") then "haiku"
  else ""

/-! ## RPM wait decision (concurrency helper) -/

/-- `defaultAccountMaxRPM` (concurrency helper). -/
def defaultAccountMaxRPM : Int := 4

/-- `rpmWindowSeconds` (concurrency helper). -/
def rpmWindowSeconds : Int := 60

/-- The wait decision `WaitForRPMSlot` reaches, by duration in
milliseconds; the error-free data path of the Go function. -/
inductive RPMWaitDecision where
  | noWait
  | wait (ms : Int)
deriving Repr, DecidableEq

/-- `WaitForRPMSlot` (concurrency helper): a non-positive `maxRPM`
falls back to `defaultAccountMaxRPM`; below the effective limit no wait
happens; otherwise the wait runs to the expiry of the oldest recorded
request (5 s when unknown), capped at the 60 s window. -/
def waitForRPMSlot (maxRPM currentRPM oldestTimeMs nowMs : Int) : RPMWaitDecision :=
  let effectiveMaxRPM := if maxRPM ≤ 0 then defaultAccountMaxRPM else maxRPM
  if currentRPM < effectiveMaxRPM then .noWait
  else if oldestTimeMs = 0 then .wait 5000
  else
    let expireMs := oldestTimeMs + rpmWindowSeconds * 1000
    let waitMs := expireMs - nowMs
    if waitMs ≤ 0 then .noWait
    else if rpmWindowSeconds * 1000 < waitMs then .wait (rpmWindowSeconds * 1000)
    else .wait waitMs

/-! ## Failover loop and upstream error mapping (gateway handler) -/

/-- `mapUpstreamError` (gateway handler): upstream status to
user-visible `(HTTP status, error type)`. -/
def mapUpstreamError (statusCode : Nat) : Nat × String :=
  match statusCode with
  | 401 => (502, "upstream_error")
  | 403 => (502, "upstream_error")
  | 429 => (429, "rate_limit_error")
  | 529 => (503, "overloaded_error")
  | 500 | 502 | 503 | 504 => (502, "upstream_error")
  | _ => (502, "upstream_error")

/-- Default failover budget for the primary provider family
(`NewGatewayHandler`). -/
def maxAccountSwitchesDefault : Nat := 10

/-- Default failover budget for the secondary (Gemini) family
(`NewGatewayHandler`). -/
def maxAccountSwitchesGeminiDefault : Nat := 3

/-- Outcome of one forward attempt, as the failover loop distinguishes
them. -/
inductive ForwardOutcome where
  | success
  | failover (statusCode : Nat)
  | otherError
deriving Repr, DecidableEq

/-- How the `Messages` handler leaves its failover loop. -/
inductive LoopResult where
  | completed
  | terminal
  | exhausted (status : Nat) (errType : String)
  | pending
deriving Repr, DecidableEq

/-- The failover loop of `GatewayHandler.Messages`, driven by the
forward outcome of each successively selected account: a failover error
records the account in the failed set and either exhausts the switch
budget (mapping the last upstream status) or switches; any other
forwarder error is terminal.  Returns the loop result, the failed set
and the final switch count. -/
def messagesFailoverLoop (maxAccountSwitches : Nat) :
    Nat → List Nat → List (Nat × ForwardOutcome) → LoopResult × List Nat × Nat
  | switchCount, failed, [] => (.pending, failed, switchCount)
  | switchCount, failed, (_, .success) :: _ => (.completed, failed, switchCount)
  | switchCount, failed, (_, .otherError) :: _ => (.terminal, failed, switchCount)
  | switchCount, failed, (acc, .failover s) :: rest =>
      let failed' := acc :: failed
      if maxAccountSwitches ≤ switchCount then
        (.exhausted (mapUpstreamError s).1 (mapUpstreamError s).2, failed', switchCount)
      else
        messagesFailoverLoop maxAccountSwitches (switchCount + 1) failed' rest

/-- Modelled from the spec: `SelectAccountWithLoadAwareness` — the
account selector of §4.4 — is not under src/ (only its call sites are);
per the spec it "filter[s] to those that are schedulable for the
requested model and not in `failedAccountIDs`".  Only the failed-set
exclusion matters here: the selector returns the first candidate not in
the failed set. -/
def selectAccountModelled (candidates failed : List Nat) : Option Nat :=
  candidates.find? (fun a => !(failed.contains a))

/-! ## Arithmetic facts about the pool sizing -/

lemma CalculateTotalSlots_pos (C : Int) (hC : 1 ≤ C) :
    2 ≤ CalculateTotalSlots C := by
  unfold CalculateTotalSlots
  rw [if_neg (by omega)]
  omega

lemma CalculateModelSlotRange_of_two_le (T : Int) (hT : 2 ≤ T) :
    CalculateModelSlotRange T = (⟨0, T / 2⟩, ⟨T / 2, T⟩) := by
  unfold CalculateModelSlotRange
  rw [if_neg (by omega), if_neg (by omega)]
  have h1 : ¬ (T / 2 < 1) := by omega
  have h2 : ¬ (T / 2 ≥ T) := by omega
  simp only [if_neg h1, if_neg h2]

lemma modelSlotRangeFor_bounds (cat : String) (T : Int) (hT : 2 ≤ T) :
    0 ≤ (modelSlotRangeFor cat T).start ∧
    (modelSlotRangeFor cat T).start < (modelSlotRangeFor cat T).stop ∧
    (modelSlotRangeFor cat T).stop ≤ T := by
  unfold modelSlotRangeFor
  rw [CalculateModelSlotRange_of_two_le T hT]
  by_cases h1 : cat = "opus"
  · simp only [h1]
    refine ⟨le_refl 0, ?_, ?_⟩ <;> omega
  · by_cases h2 : cat = "sonnet"
    · simp only [h1, h2]
      refine ⟨?_, ?_, ?_⟩ <;> omega
    · simp only [h1, h2]
      refine ⟨le_refl 0, ?_, le_refl T⟩
      omega

/-- C6: for every concurrency C ≥ 1, `CalculateTotalSlots C` is the
least integer T with 4·C ≤ 3·T, i.e. ⌈4·C/3⌉; for every total T ≥ 2,
`CalculateModelSlotRange` splits into heavy = [0, ⌊T/2⌋) and
medium = [⌊T/2⌋, T); for T = 1 both categories share [0, 1); and both
ranges are non-empty for every T ≥ 1. -/
theorem C6_slot_sizing_and_range_split (C T : Int) (hC : 1 ≤ C) (hT : 1 ≤ T) :
    (4 * C ≤ 3 * CalculateTotalSlots C ∧
      ∀ T' : Int, 4 * C ≤ 3 * T' → CalculateTotalSlots C ≤ T') ∧
    (2 ≤ T → ∃ m : Int, 2 * m ≤ T ∧ T < 2 * m + 2 ∧
      CalculateModelSlotRange T = (⟨0, m⟩, ⟨m, T⟩)) ∧
    CalculateModelSlotRange 1 = (⟨0, 1⟩, ⟨0, 1⟩) ∧
    ((CalculateModelSlotRange T).1.start < (CalculateModelSlotRange T).1.stop ∧
      (CalculateModelSlotRange T).2.start < (CalculateModelSlotRange T).2.stop) := by
  refine ⟨⟨?_, ?_⟩, ?_, ?_, ?_⟩
  · unfold CalculateTotalSlots
    rw [if_neg (by omega)]
    omega
  · intro T' h
    unfold CalculateTotalSlots
    rw [if_neg (by omega)]
    omega
  · intro h2
    exact ⟨T / 2, by omega, by omega, CalculateModelSlotRange_of_two_le T h2⟩
  · unfold CalculateModelSlotRange
    norm_num
  · rcases eq_or_lt_of_le hT with h1 | h2
    · rw [← h1]
      unfold CalculateModelSlotRange
      norm_num
    · rw [CalculateModelSlotRange_of_two_le T (by omega)]
      constructor <;> simp <;> omega

/-! ## Facts about the session-aware slot script -/

@[simp] lemma SessState.owners_setOwner (st : SessState) (slot : Int)
    (r : Option OwnerRec) (s : Int) :
    (st.setOwner slot r).owners s = if s = slot then r else st.owners s := rfl

@[simp] lemma SessState.zscore_setOwner (st : SessState) (slot : Int)
    (r : Option OwnerRec) (s : Int) :
    (st.setOwner slot r).zscore s = st.zscore s := rfl

@[simp] lemma SessState.binding_setOwner (st : SessState) (slot : Int)
    (r : Option OwnerRec) :
    (st.setOwner slot r).binding = st.binding := rfl

@[simp] lemma SessState.zscore_setZ (st : SessState) (slot : Int)
    (v : Option Nat) (s : Int) :
    (st.setZ slot v).zscore s = if s = slot then v else st.zscore s := rfl

@[simp] lemma SessState.owners_setZ (st : SessState) (slot : Int)
    (v : Option Nat) (s : Int) :
    (st.setZ slot v).owners s = st.owners s := rfl

@[simp] lemma SessState.binding_setZ (st : SessState) (slot : Int)
    (v : Option Nat) :
    (st.setZ slot v).binding = st.binding := rfl

@[simp] lemma owners_setSessionSlot (st : SessState) (sess : List Nat)
    (slot : Int) (s : Int) :
    (setSessionSlot st sess slot).owners s = st.owners s := rfl

@[simp] lemma zscore_setSessionSlot (st : SessState) (sess : List Nat)
    (slot : Int) (s : Int) :
    (setSessionSlot st sess slot).zscore s = st.zscore s := rfl

lemma acquireSlotWithSession_other_fail {st : SessState} {now ttlArg : Nat}
    {slot : Int} {sess : List Nat} {mp : Nat} {r : OwnerRec}
    (hr : st.owners slot = some r) (hc : r.count ≠ 0)
    (he : ¬ (0 < r.expire ∧ r.expire < now)) (ho : r.owner ≠ sess) :
    acquireSlotWithSession st now ttlArg slot sess mp = (false, st) := by
  unfold acquireSlotWithSession
  simp only [hr, if_neg he, if_neg hc, if_neg ho]

lemma acquireSlotWithSession_same_iff {st : SessState} {now ttlArg : Nat}
    {slot : Int} {sess : List Nat} {mp : Nat} {r : OwnerRec}
    (hr : st.owners slot = some r) (hc : r.count ≠ 0)
    (he : ¬ (0 < r.expire ∧ r.expire < now)) (ho : r.owner = sess) :
    acquireSlotWithSession st now ttlArg slot sess mp
      = (if r.count < mp then
          (true, (st.setOwner slot (some ⟨r.owner, r.count + 1, now + ttlArg⟩)).setZ
            slot (some now))
        else (false, st)) := by
  unfold acquireSlotWithSession
  simp only [hr, if_neg he, if_neg hc, if_pos ho]

lemma acquireSlotWithSession_busy_fail {st : SessState} {now ttlArg : Nat}
    {slot : Int} {sess : List Nat} {mp : Nat} {r : OwnerRec}
    (hr : st.owners slot = some r) (hc : r.count ≠ 0)
    (he : ¬ (0 < r.expire ∧ r.expire < now)) (hmp : mp ≤ r.count) :
    acquireSlotWithSession st now ttlArg slot sess mp = (false, st) := by
  by_cases ho : r.owner = sess
  · rw [acquireSlotWithSession_same_iff hr hc he ho, if_neg (by omega)]
  · exact acquireSlotWithSession_other_fail hr hc he ho

lemma acquireSlotWithSession_free_succ {st : SessState} {now ttlArg : Nat}
    {slot : Int} {sess : List Nat} {mp : Nat}
    (hr : st.owners slot = none) (hz : st.zscore slot = none) :
    acquireSlotWithSession st now ttlArg slot sess mp
      = (true, (st.setOwner slot (some ⟨sess, 1, now + ttlArg⟩)).setZ
          slot (some now)) := by
  unfold acquireSlotWithSession
  simp only [hr, hz, Option.isSome_none, Bool.false_eq_true, if_false]

lemma acquireSlotWithSession_untouched (st : SessState) (now ttlArg : Nat)
    (slot : Int) (sess : List Nat) (mp : Nat) (s : Int) (hs : s ≠ slot) :
    ((acquireSlotWithSession st now ttlArg slot sess mp).2).owners s = st.owners s ∧
    ((acquireSlotWithSession st now ttlArg slot sess mp).2).zscore s = st.zscore s := by
  unfold acquireSlotWithSession
  rcases hr : st.owners slot with _ | r
  · simp only [hr]
    by_cases hz : (st.zscore slot).isSome <;> simp [hz, hs]
  · simp only [hr]
    by_cases hexp : 0 < r.expire ∧ r.expire < now
    · simp only [if_pos hexp]
      have hcl : (((st.setOwner slot none).setZ slot none).owners slot) = none := by
        simp
      simp only [hcl]
      by_cases hz : (((st.setOwner slot none).setZ slot none).zscore slot).isSome <;>
        simp [hz, hs]
    · simp only [if_neg hexp, hr]
      by_cases hc : r.count = 0
      · simp only [if_pos hc]
        by_cases hz : (st.zscore slot).isSome <;> simp [hz, hs]
      · simp only [if_neg hc]
        by_cases ho : r.owner = sess
        · simp only [if_pos ho]
          by_cases hlt : r.count < mp <;> simp [hlt, hs]
        · simp [ho, hs]

lemma acquireSlotWithSession_binding (st : SessState) (now ttlArg : Nat)
    (slot : Int) (sess : List Nat) (mp : Nat) :
    ((acquireSlotWithSession st now ttlArg slot sess mp).2).binding = st.binding := by
  unfold acquireSlotWithSession
  rcases hr : st.owners slot with _ | r
  · simp only [hr]
    by_cases hz : (st.zscore slot).isSome <;> simp [hz]
  · simp only [hr]
    by_cases hexp : 0 < r.expire ∧ r.expire < now
    · simp only [if_pos hexp]
      have hcl : (((st.setOwner slot none).setZ slot none).owners slot) = none := by
        simp
      simp only [hcl]
      by_cases hz : (((st.setOwner slot none).setZ slot none).zscore slot).isSome <;>
        simp [hz]
    · simp only [if_neg hexp, hr]
      by_cases hc : r.count = 0
      · simp only [if_pos hc]
        by_cases hz : (st.zscore slot).isSome <;> simp [hz]
      · simp only [if_neg hc]
        by_cases ho : r.owner = sess
        · simp only [if_pos ho]
          by_cases hlt : r.count < mp <;> simp [hlt]
        · simp [ho]

/-! ## Facts about the scheduler scan -/

lemma hashToSlotIndex_bounds (sess : List Nat) (n : Int) (hn : 0 < n) :
    0 ≤ hashToSlotIndex sess n ∧ hashToSlotIndex sess n < n := by
  unfold hashToSlotIndex
  rw [if_neg (by omega)]
  exact ⟨Int.emod_nonneg _ (by omega), Int.emod_lt_of_pos _ hn⟩

lemma fallbackScan_acquired_mem {now ttlArg : Nat} {sess : List Nat} {mp : Nat}
    {rs rangeSize target : Int} (hsz : 0 < rangeSize) :
    ∀ (remaining : Nat) (offset : Int) (st : SessState) (slotF : Int) (stF : SessState),
      fallbackScan now ttlArg sess mp rs rangeSize target remaining offset st
        = (some slotF, stF) →
      rs ≤ slotF ∧ slotF < rs + rangeSize ∧
        ∃ k : Int, slotF = rs + (target + k) % rangeSize := by
  intro remaining
  induction remaining with
  | zero =>
      intro offset st slotF stF h
      exact absurd h (by simp [fallbackScan])
  | succ n ih =>
      intro offset st slotF stF h
      rw [fallbackScan] at h
      by_cases hok : (acquireSlotWithSession st now ttlArg
          (rs + (target + offset) % rangeSize) sess mp).1 = true
      · rw [if_pos hok] at h
        have hslot : slotF = rs + (target + offset) % rangeSize := by
          have h1 := congrArg (fun p => p.1) h
          simpa using h1.symm
        have hmem : 0 ≤ (target + offset) % rangeSize ∧
            (target + offset) % rangeSize < rangeSize :=
          ⟨Int.emod_nonneg _ (by omega), Int.emod_lt_of_pos _ hsz⟩
        refine ⟨?_, ?_, offset, ?_⟩
        · rw [hslot]; omega
        · rw [hslot]; omega
        · exact hslot
      · rw [if_neg hok] at h
        exact ih (offset + 1) _ slotF stF h

/-- All live state lies inside the slot pool `[0, T)`: no owner record
and no `slot_{i}` membership exists at a negative index or at an index
≥ T. -/
def SlotsBounded (st : SessState) (T : Int) : Prop :=
  ∀ s : Int, s < 0 ∨ T ≤ s → st.owners s = none ∧ st.zscore s = none

lemma acquireSlotWithSession_bounded {st : SessState} {T : Int} {now ttlArg : Nat}
    {slot : Int} {sess : List Nat} {mp : Nat}
    (hb : SlotsBounded st T) (h0 : 0 ≤ slot) (hT : slot < T) :
    SlotsBounded (acquireSlotWithSession st now ttlArg slot sess mp).2 T := by
  intro s hs
  have hne : s ≠ slot := by rcases hs with h | h <;> omega
  have hut := acquireSlotWithSession_untouched st now ttlArg slot sess mp s hne
  refine ⟨?_, ?_⟩
  · rw [hut.1]; exact (hb s hs).1
  · rw [hut.2]; exact (hb s hs).2

lemma fallbackScan_bounded {now ttlArg : Nat} {sess : List Nat} {mp : Nat}
    {rs rangeSize target T : Int} (h0 : 0 ≤ rs) (hend : rs + rangeSize ≤ T)
    (hsz : 0 < rangeSize) :
    ∀ (remaining : Nat) (offset : Int) (st : SessState), SlotsBounded st T →
      SlotsBounded
        (fallbackScan now ttlArg sess mp rs rangeSize target remaining offset st).2
        T := by
  intro remaining
  induction remaining with
  | zero => intro offset st hb; exact hb
  | succ n ih =>
      intro offset st hb
      rw [fallbackScan]
      have hmem : 0 ≤ (target + offset) % rangeSize ∧
          (target + offset) % rangeSize < rangeSize :=
        ⟨Int.emod_nonneg _ (by omega), Int.emod_lt_of_pos _ hsz⟩
      have hb' : SlotsBounded (acquireSlotWithSession st now ttlArg
          (rs + (target + offset) % rangeSize) sess mp).2 T :=
        acquireSlotWithSession_bounded hb (by omega) (by omega)
      by_cases hok : (acquireSlotWithSession st now ttlArg
          (rs + (target + offset) % rangeSize) sess mp).1 = true
      · rw [if_pos hok]
        exact fun s hs => hb' s hs
      · rw [if_neg hok]
        exact ih (offset + 1) _ hb'

lemma acquireSessionSlotScan_bounded {now ttlArg : Nat} {sess : List Nat}
    {mp : Nat} {rs rangeSize T : Int} {st : SessState}
    (h0 : 0 ≤ rs) (hend : rs + rangeSize ≤ T) (hsz : 0 < rangeSize)
    (hb : SlotsBounded st T) :
    SlotsBounded (acquireSessionSlotScan now ttlArg sess mp rs rangeSize st).2 T := by
  have htg := hashToSlotIndex_bounds sess rangeSize hsz
  have hb1 : SlotsBounded (acquireSlotWithSession st now ttlArg
      (rs + hashToSlotIndex sess rangeSize) sess mp).2 T :=
    acquireSlotWithSession_bounded hb (by omega) (by omega)
  unfold acquireSessionSlotScan
  by_cases hok : (acquireSlotWithSession st now ttlArg
      (rs + hashToSlotIndex sess rangeSize) sess mp).1 = true
  · rw [if_pos hok]
    exact fun s hs => hb1 s hs
  · rw [if_neg hok]
    have hfb : SlotsBounded (fallbackScan now ttlArg sess mp rs rangeSize
        (hashToSlotIndex sess rangeSize) (rangeSize - 1).toNat 1
        (acquireSlotWithSession st now ttlArg
          (rs + hashToSlotIndex sess rangeSize) sess mp).2).2 T :=
      fallbackScan_bounded h0 hend hsz (rangeSize - 1).toNat 1 _ hb1
    rcases hfs : fallbackScan now ttlArg sess mp rs rangeSize
        (hashToSlotIndex sess rangeSize) (rangeSize - 1).toNat 1
        (acquireSlotWithSession st now ttlArg
          (rs + hashToSlotIndex sess rangeSize) sess mp).2 with ⟨oslot, stF⟩
    rw [hfs] at hfb
    cases oslot <;> exact fun s hs => hfb s hs

lemma acquireSessionSlot_bounded {st : SessState} {now ttlArg : Nat}
    {maxConc : Int} {sess : List Nat} {cat : String}
    (hC : 1 ≤ maxConc) (hb : SlotsBounded st (CalculateTotalSlots maxConc)) :
    SlotsBounded (acquireSessionSlot st now ttlArg maxConc sess cat).2
      (CalculateTotalSlots maxConc) := by
  have hT : 2 ≤ CalculateTotalSlots maxConc := CalculateTotalSlots_pos _ hC
  have hr := modelSlotRangeFor_bounds cat (CalculateTotalSlots maxConc) hT
  unfold acquireSessionSlot
  rw [if_neg (by omega : ¬ maxConc ≤ 0)]
  simp only
  rw [if_neg (by omega :
    ¬ ((modelSlotRangeFor cat (CalculateTotalSlots maxConc)).stop -
        (modelSlotRangeFor cat (CalculateTotalSlots maxConc)).start ≤ 0))]
  have hscan : ∀ st' : SessState, SlotsBounded st' (CalculateTotalSlots maxConc) →
      SlotsBounded (acquireSessionSlotScan now ttlArg sess (maxParallelFor cat)
        (modelSlotRangeFor cat (CalculateTotalSlots maxConc)).start
        ((modelSlotRangeFor cat (CalculateTotalSlots maxConc)).stop -
          (modelSlotRangeFor cat (CalculateTotalSlots maxConc)).start) st').2
        (CalculateTotalSlots maxConc) :=
    fun st' hb' => acquireSessionSlotScan_bounded (by omega) (by omega) (by omega) hb'
  by_cases hbound : 0 ≤ ((st.binding sess).getD (-1))
  · rw [if_pos hbound]
    by_cases hin : (modelSlotRangeFor cat (CalculateTotalSlots maxConc)).start ≤
        (st.binding sess).getD (-1) ∧
        (st.binding sess).getD (-1) <
          (modelSlotRangeFor cat (CalculateTotalSlots maxConc)).stop
    · rw [if_pos hin]
      have hb1 : SlotsBounded (acquireSlotWithSession st now ttlArg
          ((st.binding sess).getD (-1)) sess (maxParallelFor cat)).2
          (CalculateTotalSlots maxConc) :=
        acquireSlotWithSession_bounded hb (by omega) (by omega)
      by_cases hok : (acquireSlotWithSession st now ttlArg
          ((st.binding sess).getD (-1)) sess (maxParallelFor cat)).1 = true
      · rw [if_pos hok]
        exact hb1
      · rw [if_neg hok]
        exact hscan _ hb1
    · rw [if_neg hin]
      exact hscan _ hb
  · rw [if_neg hbound]
    exact hscan _ hb

/-! ## Lookup facts about `zadd` -/

lemma zscoreOf_append_of_none {l₁ : List (String × Nat)} {m : String}
    (h : zscoreOf l₁ m = none) (l₂ : List (String × Nat)) :
    zscoreOf (l₁ ++ l₂) m = zscoreOf l₂ m := by
  induction l₁ with
  | nil => rfl
  | cons p t ih =>
      obtain ⟨k, v⟩ := p
      by_cases hk : k = m
      · simp [zscoreOf, hk] at h
      · simp only [zscoreOf, if_neg hk, List.cons_append] at h ⊢
        exact ih h

lemma zscoreOf_map_update_self {l : List (String × Nat)} {m : String}
    (h : (zscoreOf l m).isSome) (sc : Nat) :
    zscoreOf (l.map (fun p => if p.1 = m then (m, sc) else p)) m = some sc := by
  induction l with
  | nil => simp [zscoreOf] at h
  | cons p t ih =>
      obtain ⟨k, v⟩ := p
      simp only [List.map_cons]
      by_cases hk : k = m
      · subst hk
        rw [show (if (k, v).1 = k then (k, sc) else (k, v)) = (k, sc) from if_pos rfl]
        simp [zscoreOf]
      · rw [show (if (k, v).1 = m then (m, sc) else (k, v)) = (k, v) from if_neg hk]
        have h' : (zscoreOf t m).isSome := by simpa [zscoreOf, hk] using h
        simp only [zscoreOf, if_neg hk]
        exact ih h'

lemma zscoreOf_map_update_ne {m m' : String} (hne : m' ≠ m)
    (l : List (String × Nat)) (sc : Nat) :
    zscoreOf (l.map (fun p => if p.1 = m then (m, sc) else p)) m' = zscoreOf l m' := by
  induction l with
  | nil => rfl
  | cons p t ih =>
      obtain ⟨k, v⟩ := p
      simp only [List.map_cons]
      by_cases hk : k = m
      · subst hk
        have hne' : ¬ (k = m') := fun h => hne h.symm
        rw [show (if (k, v).1 = k then (k, sc) else (k, v)) = (k, sc) from if_pos rfl]
        simp only [zscoreOf, if_neg hne']
        exact ih
      · rw [show (if (k, v).1 = m then (m, sc) else (k, v)) = (k, v) from if_neg hk]
        by_cases hk' : k = m'
        · simp only [zscoreOf, if_pos hk']
        · simp only [zscoreOf, if_neg hk']
          exact ih

lemma zscoreOf_append_single_ne {m m' : String} (hne : m' ≠ m)
    (l : List (String × Nat)) (sc : Nat) :
    zscoreOf (l ++ [(m, sc)]) m' = zscoreOf l m' := by
  induction l with
  | nil =>
      simp only [List.nil_append, zscoreOf]
      rw [if_neg (fun hc : m = m' => hne hc.symm)]
  | cons p t ih =>
      obtain ⟨k, v⟩ := p
      by_cases hk : k = m'
      · simp only [List.cons_append, zscoreOf, if_pos hk]
      · simp only [List.cons_append, zscoreOf, if_neg hk]
        exact ih

lemma zscoreOf_zadd_self (l : List (String × Nat)) (m : String) (sc : Nat) :
    zscoreOf (zadd l m sc) m = some sc := by
  unfold zadd
  by_cases h : (zscoreOf l m).isSome
  · rw [if_pos h]
    exact zscoreOf_map_update_self h sc
  · rw [if_neg h]
    rw [zscoreOf_append_of_none (Option.not_isSome_iff_eq_none.mp h)]
    simp [zscoreOf]

lemma zscoreOf_zadd_ne {m m' : String} (hne : m' ≠ m)
    (l : List (String × Nat)) (sc : Nat) :
    zscoreOf (zadd l m sc) m' = zscoreOf l m' := by
  unfold zadd
  by_cases h : (zscoreOf l m).isSome
  · rw [if_pos h]
    exact zscoreOf_map_update_ne hne l sc
  · rw [if_neg h]
    exact zscoreOf_append_single_ne hne l sc

/-- C5: the `acquireScript` semantics — expired members (score ≤
now − ttl) are removed first; an existing member has its score
refreshed to `now` and the call succeeds; a new member is admitted with
score `now` exactly when the post-cleanup cardinality is below
`maxConcurrency`, the set being otherwise unchanged; the key TTL is
refreshed on every success and untouched on failure. -/
theorem C5_acquire_script_semantics (z : ZSet) (now ttlArg : Nat) (maxConc : Int)
    (requestID : String) (hmax : 1 ≤ maxConc) :
    (∀ p : String × Nat, p ∈ zcleanup z.members ((now : Int) - ttlArg) ↔
        p ∈ z.members ∧ (now : Int) - ttlArg < p.2) ∧
    ((zscoreOf (zcleanup z.members ((now : Int) - ttlArg)) requestID).isSome →
        (acquireSlot z now ttlArg maxConc requestID).1 = true ∧
        zscoreOf (acquireSlot z now ttlArg maxConc requestID).2.members requestID
          = some now ∧
        (∀ m, m ≠ requestID →
          zscoreOf (acquireSlot z now ttlArg maxConc requestID).2.members m
            = zscoreOf (zcleanup z.members ((now : Int) - ttlArg)) m)) ∧
    (zscoreOf (zcleanup z.members ((now : Int) - ttlArg)) requestID = none →
        ((acquireSlot z now ttlArg maxConc requestID).1 = true ↔
          ((zcleanup z.members ((now : Int) - ttlArg)).length : Int) < maxConc) ∧
        ((acquireSlot z now ttlArg maxConc requestID).1 = true →
          zscoreOf (acquireSlot z now ttlArg maxConc requestID).2.members requestID
            = some now ∧
          (∀ m, m ≠ requestID →
            zscoreOf (acquireSlot z now ttlArg maxConc requestID).2.members m
              = zscoreOf (zcleanup z.members ((now : Int) - ttlArg)) m)) ∧
        ((acquireSlot z now ttlArg maxConc requestID).1 = false →
          (acquireSlot z now ttlArg maxConc requestID).2.members
            = zcleanup z.members ((now : Int) - ttlArg) ∧
          (acquireSlot z now ttlArg maxConc requestID).2.ttl = z.ttl)) ∧
    ((acquireSlot z now ttlArg maxConc requestID).1 = true →
        (acquireSlot z now ttlArg maxConc requestID).2.ttl = some ttlArg) := by
  refine ⟨?_, ?_, ?_, ?_⟩
  · intro p
    simp [zcleanup, List.mem_filter]
  · intro h
    unfold acquireSlot
    simp only [if_pos h]
    exact ⟨by trivial, zscoreOf_zadd_self _ _ _, fun m hm => zscoreOf_zadd_ne hm _ _⟩
  · intro h
    unfold acquireSlot
    simp only [h, Option.isSome_none, Bool.false_eq_true, if_false]
    by_cases hcard : ((zcleanup z.members ((now : Int) - ttlArg)).length : Int) < maxConc
    · simp only [if_pos hcard]
      refine ⟨by simp [hcard], ?_, by simp⟩
      intro _
      exact ⟨zscoreOf_zadd_self _ _ _, fun m hm => zscoreOf_zadd_ne hm _ _⟩
    · simp only [if_neg hcard]
      refine ⟨by simp [hcard], by simp, fun _ => ⟨by trivial, by trivial⟩⟩
  · intro h
    unfold acquireSlot at h ⊢
    by_cases h1 : (zscoreOf (zcleanup z.members ((now : Int) - ttlArg)) requestID).isSome
    · simp [if_pos h1]
    · simp only [if_neg h1] at h ⊢
      by_cases hcard : ((zcleanup z.members ((now : Int) - ttlArg)).length : Int) < maxConc
      · simp [if_pos hcard]
      · simp [if_neg hcard] at h

/-- Witness for C5 at a concrete zset with one fresh and one expired
member. -/
theorem C5_witness :
    (∀ p : String × Nat,
        p ∈ zcleanup (⟨[("old", 10), ("live", 990)], none⟩ : ZSet).members
            ((1000 : Int) - 900) ↔
          p ∈ (⟨[("old", 10), ("live", 990)], none⟩ : ZSet).members ∧
            (1000 : Int) - 900 < p.2) ∧
    ((zscoreOf (zcleanup (⟨[("old", 10), ("live", 990)], none⟩ : ZSet).members
          ((1000 : Int) - 900)) "req").isSome →
        (acquireSlot ⟨[("old", 10), ("live", 990)], none⟩ 1000 900 2 "req").1 = true ∧
        zscoreOf (acquireSlot ⟨[("old", 10), ("live", 990)], none⟩ 1000 900 2
            "req").2.members "req" = some 1000 ∧
        (∀ m, m ≠ "req" →
          zscoreOf (acquireSlot ⟨[("old", 10), ("live", 990)], none⟩ 1000 900 2
              "req").2.members m
            = zscoreOf (zcleanup (⟨[("old", 10), ("live", 990)], none⟩ : ZSet).members
                ((1000 : Int) - 900)) m)) ∧
    (zscoreOf (zcleanup (⟨[("old", 10), ("live", 990)], none⟩ : ZSet).members
        ((1000 : Int) - 900)) "req" = none →
        ((acquireSlot ⟨[("old", 10), ("live", 990)], none⟩ 1000 900 2 "req").1 = true ↔
          ((zcleanup (⟨[("old", 10), ("live", 990)], none⟩ : ZSet).members
              ((1000 : Int) - 900)).length : Int) < 2) ∧
        ((acquireSlot ⟨[("old", 10), ("live", 990)], none⟩ 1000 900 2 "req").1 = true →
          zscoreOf (acquireSlot ⟨[("old", 10), ("live", 990)], none⟩ 1000 900 2
              "req").2.members "req" = some 1000 ∧
          (∀ m, m ≠ "req" →
            zscoreOf (acquireSlot ⟨[("old", 10), ("live", 990)], none⟩ 1000 900 2
                "req").2.members m
              = zscoreOf (zcleanup (⟨[("old", 10), ("live", 990)], none⟩ : ZSet).members
                  ((1000 : Int) - 900)) m)) ∧
        ((acquireSlot ⟨[("old", 10), ("live", 990)], none⟩ 1000 900 2 "req").1 = false →
          (acquireSlot ⟨[("old", 10), ("live", 990)], none⟩ 1000 900 2 "req").2.members
            = zcleanup (⟨[("old", 10), ("live", 990)], none⟩ : ZSet).members
                ((1000 : Int) - 900) ∧
          (acquireSlot ⟨[("old", 10), ("live", 990)], none⟩ 1000 900 2 "req").2.ttl
            = (⟨[("old", 10), ("live", 990)], none⟩ : ZSet).ttl)) ∧
    ((acquireSlot ⟨[("old", 10), ("live", 990)], none⟩ 1000 900 2 "req").1 = true →
        (acquireSlot ⟨[("old", 10), ("live", 990)], none⟩ 1000 900 2 "req").2.ttl
          = some 900) :=
  C5_acquire_script_semantics ⟨[("old", 10), ("live", 990)], none⟩ 1000 900 2 "req"
    (by decide)

lemma acquireSessionSlotScan_free_target {now ttlArg : Nat} {sess : List Nat}
    {mp : Nat} {rs rangeSize : Int} {st : SessState}
    (hro : st.owners (rs + hashToSlotIndex sess rangeSize) = none)
    (hrz : st.zscore (rs + hashToSlotIndex sess rangeSize) = none) :
    (acquireSessionSlotScan now ttlArg sess mp rs rangeSize st).1
      = ⟨true, rs + hashToSlotIndex sess rangeSize⟩ := by
  unfold acquireSessionSlotScan
  dsimp only
  rw [acquireSlotWithSession_free_succ hro hrz]
  simp

lemma fallbackScan_occupied_fail {now ttlArg : Nat} {sess : List Nat} {mp : Nat}
    {rs rangeSize target : Int} (hsz : 0 < rangeSize) :
    ∀ (remaining : Nat) (offset : Int) (st : SessState),
      (∀ sl : Int, rs ≤ sl → sl < rs + rangeSize →
        ∃ rec : OwnerRec, st.owners sl = some rec ∧ rec.count ≠ 0 ∧
          ¬ (0 < rec.expire ∧ rec.expire < now) ∧ mp ≤ rec.count) →
      fallbackScan now ttlArg sess mp rs rangeSize target remaining offset st
        = (none, st) := by
  intro remaining
  induction remaining with
  | zero => intro offset st hocc; rfl
  | succ n ih =>
      intro offset st hocc
      rw [fallbackScan]
      have hmem : 0 ≤ (target + offset) % rangeSize ∧
          (target + offset) % rangeSize < rangeSize :=
        ⟨Int.emod_nonneg _ (by omega), Int.emod_lt_of_pos _ hsz⟩
      obtain ⟨rec, hr, hc, he, hm⟩ :=
        hocc (rs + (target + offset) % rangeSize) (by omega) (by omega)
      rw [acquireSlotWithSession_busy_fail hr hc he hm]
      exact ih (offset + 1) st hocc

lemma acquireSessionSlotScan_occupied_fail {now ttlArg : Nat} {sess : List Nat}
    {mp : Nat} {rs rangeSize : Int} {st : SessState} (hsz : 0 < rangeSize)
    (hocc : ∀ sl : Int, rs ≤ sl → sl < rs + rangeSize →
      ∃ rec : OwnerRec, st.owners sl = some rec ∧ rec.count ≠ 0 ∧
        ¬ (0 < rec.expire ∧ rec.expire < now) ∧ mp ≤ rec.count) :
    acquireSessionSlotScan now ttlArg sess mp rs rangeSize st
      = (⟨false, rs + hashToSlotIndex sess rangeSize⟩, st) := by
  have htg := hashToSlotIndex_bounds sess rangeSize hsz
  obtain ⟨rec, hr, hc, he, hm⟩ :=
    hocc (rs + hashToSlotIndex sess rangeSize) (by omega) (by omega)
  unfold acquireSessionSlotScan
  dsimp only
  rw [acquireSlotWithSession_busy_fail hr hc he hm]
  rw [show ((false, st) : Bool × SessState).2 = st from rfl]
  rw [fallbackScan_occupied_fail hsz (rangeSize - 1).toNat 1 st hocc]
  simp

lemma acquireSessionSlotScan_acquired_mem {now ttlArg : Nat} {sess : List Nat}
    {mp : Nat} {rs rangeSize : Int} {st : SessState} (hsz : 0 < rangeSize)
    (h : (acquireSessionSlotScan now ttlArg sess mp rs rangeSize st).1.acquired
      = true) :
    rs ≤ (acquireSessionSlotScan now ttlArg sess mp rs rangeSize st).1.slotIndex ∧
    (acquireSessionSlotScan now ttlArg sess mp rs rangeSize st).1.slotIndex
      < rs + rangeSize ∧
    ∃ k : Int, (acquireSessionSlotScan now ttlArg sess mp rs rangeSize st).1.slotIndex
      = rs + (hashToSlotIndex sess rangeSize + k) % rangeSize := by
  have htg := hashToSlotIndex_bounds sess rangeSize hsz
  unfold acquireSessionSlotScan at h ⊢
  dsimp only at h ⊢
  by_cases hok : (acquireSlotWithSession st now ttlArg
      (rs + hashToSlotIndex sess rangeSize) sess mp).1 = true
  · rw [if_pos hok]
    refine ⟨by dsimp; omega, by dsimp; omega, 0, ?_⟩
    dsimp
    rw [add_zero, Int.emod_eq_of_lt htg.1 htg.2]
  · rw [if_neg hok] at h ⊢
    rcases hfs : fallbackScan now ttlArg sess mp rs rangeSize
        (hashToSlotIndex sess rangeSize) (rangeSize - 1).toNat 1
        (acquireSlotWithSession st now ttlArg
          (rs + hashToSlotIndex sess rangeSize) sess mp).2 with ⟨oslot, stF⟩
    rw [hfs] at h
    cases oslot with
    | none => exact absurd h (by simp)
    | some slotF =>
        have hmem := fallbackScan_acquired_mem hsz (rangeSize - 1).toNat 1 _
          slotF stF hfs
        exact ⟨by dsimp; omega, by dsimp; omega, hmem.2.2.choose,
          by dsimp; exact hmem.2.2.choose_spec⟩

lemma acquireSessionSlot_cases (st : SessState) (now ttlArg : Nat) (maxConc : Int)
    (sess : List Nat) (cat : String) (hC : 1 ≤ maxConc) :
    (∃ b : Int,
      ((modelSlotRangeFor cat (CalculateTotalSlots maxConc)).start ≤ b ∧
        b < (modelSlotRangeFor cat (CalculateTotalSlots maxConc)).stop) ∧
      (acquireSlotWithSession st now ttlArg b sess (maxParallelFor cat)).1 = true ∧
      acquireSessionSlot st now ttlArg maxConc sess cat
        = (⟨true, b⟩,
            (acquireSlotWithSession st now ttlArg b sess (maxParallelFor cat)).2)) ∨
    (acquireSessionSlot st now ttlArg maxConc sess cat
      = acquireSessionSlotScan now ttlArg sess (maxParallelFor cat)
          (modelSlotRangeFor cat (CalculateTotalSlots maxConc)).start
          ((modelSlotRangeFor cat (CalculateTotalSlots maxConc)).stop -
            (modelSlotRangeFor cat (CalculateTotalSlots maxConc)).start) st) ∨
    (∃ b : Int,
      ((modelSlotRangeFor cat (CalculateTotalSlots maxConc)).start ≤ b ∧
        b < (modelSlotRangeFor cat (CalculateTotalSlots maxConc)).stop) ∧
      (acquireSlotWithSession st now ttlArg b sess (maxParallelFor cat)).1 = false ∧
      acquireSessionSlot st now ttlArg maxConc sess cat
        = acquireSessionSlotScan now ttlArg sess (maxParallelFor cat)
            (modelSlotRangeFor cat (CalculateTotalSlots maxConc)).start
            ((modelSlotRangeFor cat (CalculateTotalSlots maxConc)).stop -
              (modelSlotRangeFor cat (CalculateTotalSlots maxConc)).start)
            (acquireSlotWithSession st now ttlArg b sess (maxParallelFor cat)).2) := by
  have hT : 2 ≤ CalculateTotalSlots maxConc := CalculateTotalSlots_pos _ hC
  have hr := modelSlotRangeFor_bounds cat (CalculateTotalSlots maxConc) hT
  unfold acquireSessionSlot
  rw [if_neg (by omega : ¬ maxConc ≤ 0)]
  dsimp only
  rw [if_neg (by omega :
    ¬ ((modelSlotRangeFor cat (CalculateTotalSlots maxConc)).stop -
        (modelSlotRangeFor cat (CalculateTotalSlots maxConc)).start ≤ 0))]
  by_cases hb0 : (0 : Int) ≤ (st.binding sess).getD (-1)
  · rw [if_pos hb0]
    by_cases hbr : (modelSlotRangeFor cat (CalculateTotalSlots maxConc)).start ≤
        (st.binding sess).getD (-1) ∧
        (st.binding sess).getD (-1) <
          (modelSlotRangeFor cat (CalculateTotalSlots maxConc)).stop
    · rw [if_pos hbr]
      by_cases hok : (acquireSlotWithSession st now ttlArg
          ((st.binding sess).getD (-1)) sess (maxParallelFor cat)).1 = true
      · rw [if_pos hok]
        exact Or.inl ⟨(st.binding sess).getD (-1), hbr, hok, rfl⟩
      · rw [if_neg hok]
        exact Or.inr (Or.inr ⟨(st.binding sess).getD (-1), hbr,
          Bool.not_eq_true _ ▸ hok, rfl⟩)
    · rw [if_neg hbr]
      exact Or.inr (Or.inl rfl)
  · rw [if_neg hb0]
    exact Or.inr (Or.inl rfl)

/-- C4: for a heavy (opus) or medium (sonnet) request, the heavy and
medium ranges are disjoint; every successful `AcquireSessionSlot` slot
index lies inside the category's range; with no binding and a free
preferred slot, the preferred slot `rangeStart + byteSum mod rangeSize`
is returned; the fallback scan only ever returns slots of the form
`rangeStart + ((target + offset) mod rangeSize)`; and when every slot
of the range holds a live owner record, the result is
`acquired = false`. -/
theorem C4_model_pool_hard_isolation (st : SessState) (now ttlArg : Nat)
    (maxConc : Int) (sess : List Nat) (cat : String) (hC : 1 ≤ maxConc)
    (hcat : cat = "opus" ∨ cat = "sonnet") :
    (modelSlotRangeFor "opus" (CalculateTotalSlots maxConc)).stop
      ≤ (modelSlotRangeFor "sonnet" (CalculateTotalSlots maxConc)).start ∧
    ((acquireSessionSlot st now ttlArg maxConc sess cat).1.acquired = true →
      (modelSlotRangeFor cat (CalculateTotalSlots maxConc)).start
        ≤ (acquireSessionSlot st now ttlArg maxConc sess cat).1.slotIndex ∧
      (acquireSessionSlot st now ttlArg maxConc sess cat).1.slotIndex
        < (modelSlotRangeFor cat (CalculateTotalSlots maxConc)).stop) ∧
    (st.binding sess = none →
      st.owners ((modelSlotRangeFor cat (CalculateTotalSlots maxConc)).start +
        hashToSlotIndex sess
          ((modelSlotRangeFor cat (CalculateTotalSlots maxConc)).stop -
            (modelSlotRangeFor cat (CalculateTotalSlots maxConc)).start)) = none →
      st.zscore ((modelSlotRangeFor cat (CalculateTotalSlots maxConc)).start +
        hashToSlotIndex sess
          ((modelSlotRangeFor cat (CalculateTotalSlots maxConc)).stop -
            (modelSlotRangeFor cat (CalculateTotalSlots maxConc)).start)) = none →
      (acquireSessionSlot st now ttlArg maxConc sess cat).1
        = ⟨true, (modelSlotRangeFor cat (CalculateTotalSlots maxConc)).start +
            hashToSlotIndex sess
              ((modelSlotRangeFor cat (CalculateTotalSlots maxConc)).stop -
                (modelSlotRangeFor cat (CalculateTotalSlots maxConc)).start)⟩) ∧
    (∀ st' : SessState,
      (acquireSessionSlotScan now ttlArg sess (maxParallelFor cat)
        (modelSlotRangeFor cat (CalculateTotalSlots maxConc)).start
        ((modelSlotRangeFor cat (CalculateTotalSlots maxConc)).stop -
          (modelSlotRangeFor cat (CalculateTotalSlots maxConc)).start) st').1.acquired
        = true →
      ∃ k : Int,
        (acquireSessionSlotScan now ttlArg sess (maxParallelFor cat)
          (modelSlotRangeFor cat (CalculateTotalSlots maxConc)).start
          ((modelSlotRangeFor cat (CalculateTotalSlots maxConc)).stop -
            (modelSlotRangeFor cat (CalculateTotalSlots maxConc)).start) st').1.slotIndex
          = (modelSlotRangeFor cat (CalculateTotalSlots maxConc)).start +
            (hashToSlotIndex sess
              ((modelSlotRangeFor cat (CalculateTotalSlots maxConc)).stop -
                (modelSlotRangeFor cat (CalculateTotalSlots maxConc)).start) + k) %
              ((modelSlotRangeFor cat (CalculateTotalSlots maxConc)).stop -
                (modelSlotRangeFor cat (CalculateTotalSlots maxConc)).start)) ∧
    ((∀ sl : Int,
        (modelSlotRangeFor cat (CalculateTotalSlots maxConc)).start ≤ sl →
        sl < (modelSlotRangeFor cat (CalculateTotalSlots maxConc)).stop →
        ∃ rec : OwnerRec, st.owners sl = some rec ∧ rec.count ≠ 0 ∧
          ¬ (0 < rec.expire ∧ rec.expire < now)) →
      (acquireSessionSlot st now ttlArg maxConc sess cat).1.acquired = false) := by
  have hT : 2 ≤ CalculateTotalSlots maxConc := CalculateTotalSlots_pos _ hC
  have hr := modelSlotRangeFor_bounds cat (CalculateTotalSlots maxConc) hT
  have hsz : 0 < (modelSlotRangeFor cat (CalculateTotalSlots maxConc)).stop -
      (modelSlotRangeFor cat (CalculateTotalSlots maxConc)).start := by omega
  have hmp1 : maxParallelFor cat = 1 := by
    rcases hcat with h | h <;> subst h <;> rfl
  refine ⟨?_, ?_, ?_, ?_, ?_⟩
  · unfold modelSlotRangeFor
    rw [CalculateModelSlotRange_of_two_le _ hT]
    simp
  · intro hacq
    rcases acquireSessionSlot_cases st now ttlArg maxConc sess cat hC with
      ⟨b, hbr, _, heq⟩ | heq | ⟨b, hbr, _, heq⟩
    · rw [heq]
      exact hbr
    · rw [heq] at hacq ⊢
      have hmem := acquireSessionSlotScan_acquired_mem hsz hacq
      exact ⟨hmem.1, by omega⟩
    · rw [heq] at hacq ⊢
      have hmem := acquireSessionSlotScan_acquired_mem hsz hacq
      exact ⟨hmem.1, by omega⟩
  · intro h1 h2 h3
    unfold acquireSessionSlot
    rw [if_neg (by omega : ¬ maxConc ≤ 0)]
    dsimp only
    rw [if_neg (by omega :
      ¬ ((modelSlotRangeFor cat (CalculateTotalSlots maxConc)).stop -
          (modelSlotRangeFor cat (CalculateTotalSlots maxConc)).start ≤ 0))]
    rw [h1]
    rw [if_neg (by simp : ¬ ((0 : Int) ≤ (none : Option Int).getD (-1)))]
    exact acquireSessionSlotScan_free_target h2 h3
  · intro st' hacq
    exact (acquireSessionSlotScan_acquired_mem hsz hacq).2.2
  · intro hocc
    have hocc' : ∀ sl : Int,
        (modelSlotRangeFor cat (CalculateTotalSlots maxConc)).start ≤ sl →
        sl < (modelSlotRangeFor cat (CalculateTotalSlots maxConc)).start +
          ((modelSlotRangeFor cat (CalculateTotalSlots maxConc)).stop -
            (modelSlotRangeFor cat (CalculateTotalSlots maxConc)).start) →
        ∃ rec : OwnerRec, st.owners sl = some rec ∧ rec.count ≠ 0 ∧
          ¬ (0 < rec.expire ∧ rec.expire < now) ∧ maxParallelFor cat ≤ rec.count := by
      intro sl hs1 hs2
      obtain ⟨rec, ha, hb, hc⟩ := hocc sl hs1 (by omega)
      exact ⟨rec, ha, hb, hc, by rw [hmp1]; omega⟩
    rcases acquireSessionSlot_cases st now ttlArg maxConc sess cat hC with
      ⟨b, hbr, hok, heq⟩ | heq | ⟨b, hbr, hok, heq⟩
    · obtain ⟨rec, ha, hb, hc⟩ := hocc b hbr.1 hbr.2
      have hfail : acquireSlotWithSession st now ttlArg b sess (maxParallelFor cat)
          = (false, st) :=
        acquireSlotWithSession_busy_fail ha hb hc (by rw [hmp1]; omega)
      rw [hfail] at hok
      exact absurd hok (by simp)
    · rw [heq, acquireSessionSlotScan_occupied_fail hsz hocc']
    · obtain ⟨rec, ha, hb, hc⟩ := hocc b hbr.1 hbr.2
      have hfail : acquireSlotWithSession st now ttlArg b sess (maxParallelFor cat)
          = (false, st) :=
        acquireSlotWithSession_busy_fail ha hb hc (by rw [hmp1]; omega)
      rw [heq, hfail]
      rw [show ((false, st) : Bool × SessState).2 = st from rfl]
      rw [acquireSessionSlotScan_occupied_fail hsz hocc']

/-- Witness for C4: an account with C = 3 (T = 4, heavy = [0, 2),
medium = [2, 4)) and an opus request of the session with byte list
[5]. -/
theorem C4_witness :
    (modelSlotRangeFor "opus" (CalculateTotalSlots 3)).stop
      ≤ (modelSlotRangeFor "sonnet" (CalculateTotalSlots 3)).start ∧
    ((acquireSessionSlot sessInit 1000 900 3 [5] "opus").1.acquired = true →
      (modelSlotRangeFor "opus" (CalculateTotalSlots 3)).start
        ≤ (acquireSessionSlot sessInit 1000 900 3 [5] "opus").1.slotIndex ∧
      (acquireSessionSlot sessInit 1000 900 3 [5] "opus").1.slotIndex
        < (modelSlotRangeFor "opus" (CalculateTotalSlots 3)).stop) ∧
    (sessInit.binding [5] = none →
      sessInit.owners ((modelSlotRangeFor "opus" (CalculateTotalSlots 3)).start +
        hashToSlotIndex [5]
          ((modelSlotRangeFor "opus" (CalculateTotalSlots 3)).stop -
            (modelSlotRangeFor "opus" (CalculateTotalSlots 3)).start)) = none →
      sessInit.zscore ((modelSlotRangeFor "opus" (CalculateTotalSlots 3)).start +
        hashToSlotIndex [5]
          ((modelSlotRangeFor "opus" (CalculateTotalSlots 3)).stop -
            (modelSlotRangeFor "opus" (CalculateTotalSlots 3)).start)) = none →
      (acquireSessionSlot sessInit 1000 900 3 [5] "opus").1
        = ⟨true, (modelSlotRangeFor "opus" (CalculateTotalSlots 3)).start +
            hashToSlotIndex [5]
              ((modelSlotRangeFor "opus" (CalculateTotalSlots 3)).stop -
                (modelSlotRangeFor "opus" (CalculateTotalSlots 3)).start)⟩) ∧
    (∀ st' : SessState,
      (acquireSessionSlotScan 1000 900 [5] (maxParallelFor "opus")
        (modelSlotRangeFor "opus" (CalculateTotalSlots 3)).start
        ((modelSlotRangeFor "opus" (CalculateTotalSlots 3)).stop -
          (modelSlotRangeFor "opus" (CalculateTotalSlots 3)).start) st').1.acquired
        = true →
      ∃ k : Int,
        (acquireSessionSlotScan 1000 900 [5] (maxParallelFor "opus")
          (modelSlotRangeFor "opus" (CalculateTotalSlots 3)).start
          ((modelSlotRangeFor "opus" (CalculateTotalSlots 3)).stop -
            (modelSlotRangeFor "opus" (CalculateTotalSlots 3)).start) st').1.slotIndex
          = (modelSlotRangeFor "opus" (CalculateTotalSlots 3)).start +
            (hashToSlotIndex [5]
              ((modelSlotRangeFor "opus" (CalculateTotalSlots 3)).stop -
                (modelSlotRangeFor "opus" (CalculateTotalSlots 3)).start) + k) %
              ((modelSlotRangeFor "opus" (CalculateTotalSlots 3)).stop -
                (modelSlotRangeFor "opus" (CalculateTotalSlots 3)).start)) ∧
    ((∀ sl : Int,
        (modelSlotRangeFor "opus" (CalculateTotalSlots 3)).start ≤ sl →
        sl < (modelSlotRangeFor "opus" (CalculateTotalSlots 3)).stop →
        ∃ rec : OwnerRec, sessInit.owners sl = some rec ∧ rec.count ≠ 0 ∧
          ¬ (0 < rec.expire ∧ rec.expire < 1000)) →
      (acquireSessionSlot sessInit 1000 900 3 [5] "opus").1.acquired = false) :=
  C4_model_pool_hard_isolation sessInit 1000 900 3 [5] "opus" (by decide)
    (Or.inl rfl)

/-- C1 (counterexample): no-over-admission fails.  With concurrency
limit C = 3 the pool has T = 4 positions (heavy = [0, 2),
medium = [2, 4)); two opus requests of sessions [0] and [1] and two
sonnet requests of the same two sessions all acquire successfully
through `AcquireSessionSlot` and the session-aware script, leaving 4
occupied slots — more than the account's concurrency limit 3.  No step
of the session-aware path compares the occupancy against C. -/
theorem C1_counterexample :
    (acquireSessionSlot sessInit 1000 900 3 [0] "opus").1.acquired = true ∧
    ((acquireSessionSlot ((acquireSessionSlot sessInit 1000 900 3 [0] "opus").2)
        1000 900 3 [1] "opus").1.acquired = true) ∧
    ((acquireSessionSlot ((acquireSessionSlot
        ((acquireSessionSlot sessInit 1000 900 3 [0] "opus").2)
        1000 900 3 [1] "opus").2) 1000 900 3 [0] "sonnet").1.acquired = true) ∧
    ((acquireSessionSlot ((acquireSessionSlot ((acquireSessionSlot
        ((acquireSessionSlot sessInit 1000 900 3 [0] "opus").2)
        1000 900 3 [1] "opus").2) 1000 900 3 [0] "sonnet").2)
        1000 900 3 [1] "sonnet").1.acquired = true) ∧
    occupiedCount ((acquireSessionSlot ((acquireSessionSlot ((acquireSessionSlot
        ((acquireSessionSlot sessInit 1000 900 3 [0] "opus").2)
        1000 900 3 [1] "opus").2) 1000 900 3 [0] "sonnet").2)
        1000 900 3 [1] "sonnet").2) (CalculateTotalSlots 3) = 4 ∧
    ¬ (4 ≤ 3) := by
  decide

/-- C1 (amended): the session-aware acquisition path keeps every owner
record and slot membership inside the pool `[0, T)` with
T = `CalculateTotalSlots C` = ⌈4·C/3⌉, so the number of occupied slots
is bounded by T — but not by C: the per-slot script and the range scans
never compare the occupancy against the concurrency limit, and
`C1_counterexample` reaches an occupancy of ⌈4·C/3⌉ > C. -/
theorem C1_occupancy_bounded_by_total_slots (st : SessState) (now ttlArg : Nat)
    (maxConc : Int) (sess : List Nat) (cat : String) (hC : 1 ≤ maxConc)
    (hb : SlotsBounded st (CalculateTotalSlots maxConc)) :
    SlotsBounded (acquireSessionSlot st now ttlArg maxConc sess cat).2
      (CalculateTotalSlots maxConc) ∧
    occupiedCount (acquireSessionSlot st now ttlArg maxConc sess cat).2
      (CalculateTotalSlots maxConc) ≤ (CalculateTotalSlots maxConc).toNat := by
  refine ⟨acquireSessionSlot_bounded hC hb, ?_⟩
  unfold occupiedCount
  calc ((Finset.Icc 0 (CalculateTotalSlots maxConc - 1)).filter
          (fun s => ((acquireSessionSlot st now ttlArg maxConc sess cat).2.zscore
            s).isSome)).card
      ≤ (Finset.Icc 0 (CalculateTotalSlots maxConc - 1)).card :=
        Finset.card_filter_le _ _
    _ = (CalculateTotalSlots maxConc).toNat := by
        rw [Int.card_Icc]
        congr 1
        omega

/-- Witness for C1 (amended): the empty pool of an account with C = 3,
an opus request. -/
theorem C1_witness :
    SlotsBounded (acquireSessionSlot sessInit 1000 900 3 (strBytes "s1") "opus").2
      (CalculateTotalSlots 3) ∧
    occupiedCount (acquireSessionSlot sessInit 1000 900 3 (strBytes "s1") "opus").2
      (CalculateTotalSlots 3) ≤ (CalculateTotalSlots 3).toNat :=
  C1_occupancy_bounded_by_total_slots sessInit 1000 900 3 (strBytes "s1") "opus"
    (by decide) (fun s hs => ⟨rfl, rfl⟩)

/-- C2 (counterexample): the same-session sharing cap on the session
path is not 3.  One account with C = 3, one session [5], light (haiku)
model: after three concurrent acquisitions the slot-owner record of
slot 1 holds owner [5] with count 3, and a fourth request of the same
session still acquires slot 1 (count 4) — it does not fail, because
`AcquireSessionSlot` passes maxParallel = 9999 for the light family. -/
theorem C2_counterexample :
    ((acquireSessionSlot ((acquireSessionSlot ((acquireSessionSlot sessInit
        1000 900 3 [5] "haiku").2) 1000 900 3 [5] "haiku").2)
        1000 900 3 [5] "haiku").2).owners 1
      = some ⟨[5], 3, 1900⟩ ∧
    (acquireSessionSlot ((acquireSessionSlot ((acquireSessionSlot
        ((acquireSessionSlot sessInit 1000 900 3 [5] "haiku").2)
        1000 900 3 [5] "haiku").2) 1000 900 3 [5] "haiku").2)
        1000 900 3 [5] "haiku").1 = ⟨true, 1⟩ := by
  decide

/-- C2 (amended): a slot owned by a live session record can never be
acquired by a request carrying a different sessionHash; a request with
the owner's sessionHash succeeds exactly while the holder count is
below `maxParallel`, incrementing the count; and on the
`AcquireSessionSlot` path the light family runs with
maxParallel = 9999 (the constant haikuMaxParallel = 3 is not applied
there), so a 4th concurrent same-session request succeeds. -/
theorem C2_light_same_session_sharing (st : SessState) (now ttlArg : Nat)
    (slot : Int) (sess other : List Nat) (mp : Nat) (r : OwnerRec)
    (hr : st.owners slot = some r) (hc : r.count ≠ 0)
    (he : ¬ (0 < r.expire ∧ r.expire < now)) :
    (r.owner ≠ other →
      acquireSlotWithSession st now ttlArg slot other mp = (false, st)) ∧
    (r.owner = sess →
      ((acquireSlotWithSession st now ttlArg slot sess mp).1 = true ↔
        r.count < mp)) ∧
    (r.owner = sess → r.count < mp →
      ((acquireSlotWithSession st now ttlArg slot sess mp).2).owners slot
        = some ⟨r.owner, r.count + 1, now + ttlArg⟩) ∧
    maxParallelFor "haiku" = 9999 ∧ maxParallelFor "" = 9999 := by
  refine ⟨?_, ?_, ?_, rfl, rfl⟩
  · intro ho
    exact acquireSlotWithSession_other_fail hr hc he ho
  · intro ho
    rw [acquireSlotWithSession_same_iff hr hc he ho]
    by_cases hlt : r.count < mp
    · simp [hlt]
    · simp [hlt]
  · intro ho hlt
    rw [acquireSlotWithSession_same_iff hr hc he ho, if_pos hlt]
    simp

/-- Witness for C2 at a slot owned by session [5] with count 2. -/
theorem C2_witness :
    ((⟨[5], 2, 1900⟩ : OwnerRec).owner ≠ [6] →
      acquireSlotWithSession (sessInit.setOwner 1 (some ⟨[5], 2, 1900⟩))
          1000 900 1 [6] 9999
        = (false, sessInit.setOwner 1 (some ⟨[5], 2, 1900⟩))) ∧
    ((⟨[5], 2, 1900⟩ : OwnerRec).owner = [5] →
      ((acquireSlotWithSession (sessInit.setOwner 1 (some ⟨[5], 2, 1900⟩))
          1000 900 1 [5] 9999).1 = true ↔
        (⟨[5], 2, 1900⟩ : OwnerRec).count < 9999)) ∧
    ((⟨[5], 2, 1900⟩ : OwnerRec).owner = [5] →
      (⟨[5], 2, 1900⟩ : OwnerRec).count < 9999 →
      ((acquireSlotWithSession (sessInit.setOwner 1 (some ⟨[5], 2, 1900⟩))
          1000 900 1 [5] 9999).2).owners 1
        = some ⟨(⟨[5], 2, 1900⟩ : OwnerRec).owner,
            (⟨[5], 2, 1900⟩ : OwnerRec).count + 1, 1000 + 900⟩) ∧
    maxParallelFor "haiku" = 9999 ∧ maxParallelFor "" = 9999 :=
  C2_light_same_session_sharing (sessInit.setOwner 1 (some ⟨[5], 2, 1900⟩))
    1000 900 1 [5] [6] 9999 ⟨[5], 2, 1900⟩ (by decide) (by decide) (by decide)

/-! ## Facts about the failover loop -/

lemma messagesFailoverLoop_failed_mono (maxSw : Nat)
    (attempts : List (Nat × ForwardOutcome)) :
    ∀ (switchCount : Nat) (failed : List Nat) (a : Nat), a ∈ failed →
      a ∈ (messagesFailoverLoop maxSw switchCount failed attempts).2.1 := by
  induction attempts with
  | nil => intro c f a ha; exact ha
  | cons p rest ih =>
      intro c f a ha
      obtain ⟨acc, out⟩ := p
      cases out with
      | success => exact ha
      | otherError => exact ha
      | failover s =>
          simp only [messagesFailoverLoop]
          by_cases hb : maxSw ≤ c
          · simp only [if_pos hb]
            exact List.mem_cons_of_mem _ ha
          · simp only [if_neg hb]
            exact ih (c + 1) (acc :: f) a (List.mem_cons_of_mem _ ha)

lemma messagesFailoverLoop_switch_bound (maxSw : Nat)
    (attempts : List (Nat × ForwardOutcome)) :
    ∀ (switchCount : Nat) (failed : List Nat), switchCount ≤ maxSw →
      (messagesFailoverLoop maxSw switchCount failed attempts).2.2 ≤ maxSw := by
  induction attempts with
  | nil => intro c f h; exact h
  | cons p rest ih =>
      intro c f h
      obtain ⟨acc, out⟩ := p
      cases out with
      | success => exact h
      | otherError => exact h
      | failover s =>
          simp only [messagesFailoverLoop]
          by_cases hb : maxSw ≤ c
          · simp only [if_pos hb]
            exact h
          · simp only [if_neg hb]
            exact ih (c + 1) (acc :: f) (by omega)

lemma messagesFailoverLoop_exhausted_mapped (maxSw : Nat)
    (attempts : List (Nat × ForwardOutcome)) :
    ∀ (switchCount : Nat) (failed : List Nat) (u : Nat) (t : String),
      (messagesFailoverLoop maxSw switchCount failed attempts).1 = .exhausted u t →
      ∃ sc, (u, t) = mapUpstreamError sc := by
  induction attempts with
  | nil => intro c f u t h; exact absurd h (by simp [messagesFailoverLoop])
  | cons p rest ih =>
      intro c f u t h
      obtain ⟨acc, out⟩ := p
      cases out with
      | success => exact absurd h (by simp [messagesFailoverLoop])
      | otherError => exact absurd h (by simp [messagesFailoverLoop])
      | failover s =>
          simp only [messagesFailoverLoop] at h
          by_cases hb : maxSw ≤ c
          · simp only [if_pos hb] at h
            refine ⟨s, ?_⟩
            cases h
            rfl
          · simp only [if_neg hb] at h
            exact ih (c + 1) (acc :: f) u t h

/-- C9: each upstream failover error records the failed account in the
request's failed set (and the selector — modelled from the spec — never
returns an account of that set); the switch count never exceeds the
budget, whose defaults are 10 for the primary family and 3 for the
secondary family; any non-failover forwarder error is terminal; on
budget exhaustion the user-visible response is `mapUpstreamError` of
the last upstream status: 429 ↦ 429/rate_limit_error,
529 ↦ 503/overloaded_error and 401, 403, 500, 502, 503,
504 ↦ 502/upstream_error. -/
theorem C9_failover_budget_and_mapping (maxSw switchCount : Nat)
    (failed cands : List Nat) (attempts rest : List (Nat × ForwardOutcome))
    (acc s a : Nat) :
    (messagesFailoverLoop maxSw 0 failed attempts).2.2 ≤ maxSw ∧
    acc ∈ (messagesFailoverLoop maxSw switchCount failed
      ((acc, .failover s) :: rest)).2.1 ∧
    (selectAccountModelled cands failed = some a → failed.contains a = false) ∧
    messagesFailoverLoop maxSw switchCount failed ((acc, .otherError) :: rest)
      = (.terminal, failed, switchCount) ∧
    (∀ u t, (messagesFailoverLoop maxSw 0 failed attempts).1 = .exhausted u t →
      ∃ sc, (u, t) = mapUpstreamError sc) ∧
    mapUpstreamError 429 = (429, "rate_limit_error") ∧
    mapUpstreamError 529 = (503, "overloaded_error") ∧
    (∀ sc ∈ ([401, 403, 500, 502, 503, 504] : List Nat),
      mapUpstreamError sc = (502, "upstream_error")) ∧
    maxAccountSwitchesDefault = 10 ∧ maxAccountSwitchesGeminiDefault = 3 := by
  refine ⟨?_, ?_, ?_, rfl, ?_, rfl, rfl, by decide, rfl, rfl⟩
  · exact messagesFailoverLoop_switch_bound maxSw attempts 0 failed (Nat.zero_le _)
  · simp only [messagesFailoverLoop]
    by_cases hb : maxSw ≤ switchCount
    · simp only [if_pos hb]
      exact List.mem_cons_self _ _
    · simp only [if_neg hb]
      exact messagesFailoverLoop_failed_mono maxSw rest (switchCount + 1)
        (acc :: failed) acc (List.mem_cons_self _ _)
  · intro h
    have := List.find?_some h
    simpa using this
  · exact messagesFailoverLoop_exhausted_mapped maxSw attempts 0 failed

/-- Witness for C9: one failover on account 7 with upstream 429, then a
terminal error; budget 3. -/
theorem C9_witness :
    (messagesFailoverLoop 3 0 [] [(7, .failover 429), (8, .success)]).2.2 ≤ 3 ∧
    7 ∈ (messagesFailoverLoop 3 0 [] ((7, .failover 429) :: [(8, .success)])).2.1 ∧
    (selectAccountModelled [5, 6] [] = some 9 → ([] : List Nat).contains 9 = false) ∧
    messagesFailoverLoop 3 0 [] ((7, .otherError) :: [(8, .success)])
      = (.terminal, [], 0) ∧
    (∀ u t, (messagesFailoverLoop 3 0 [] [(7, .failover 429), (8, .success)]).1
        = .exhausted u t → ∃ sc, (u, t) = mapUpstreamError sc) ∧
    mapUpstreamError 429 = (429, "rate_limit_error") ∧
    mapUpstreamError 529 = (503, "overloaded_error") ∧
    (∀ sc ∈ ([401, 403, 500, 502, 503, 504] : List Nat),
      mapUpstreamError sc = (502, "upstream_error")) ∧
    maxAccountSwitchesDefault = 10 ∧ maxAccountSwitchesGeminiDefault = 3 :=
  C9_failover_budget_and_mapping 3 0 [] [5, 6] [(7, .failover 429), (8, .success)]
    [(8, .success)] 7 429 9

/-- C7 (counterexample): the wait-counter TTL is not set only on the
absent→1 transition.  Starting from an absent key, a successful
increment (value 1, TTL 99) followed by a decrement leaves a present
key with value 0 and its TTL; the next increment succeeds and re-sets
the TTL (to 77) although the key was present — a later increment does
re-extend the TTL. -/
theorem C7_ttl_counterexample :
    incrementWait ⟨none, none⟩ 10 99 = (true, ⟨some 1, some 99⟩) ∧
    decrementWait ⟨some 1, some 99⟩ = ⟨some 0, some 99⟩ ∧
    incrementWait ⟨some 0, some 99⟩ 10 77 = (true, ⟨some 1, some 77⟩) ∧
    (⟨some 1, some 77⟩ : WaitCounter).ttl ≠ (⟨some 0, some 99⟩ : WaitCounter).ttl := by
  decide

/-- C7 (amended): an increment succeeds iff the counter value (0 when
absent) is below `maxWait`; a successful increment followed by a
decrement restores the pre-increment value; the TTL is set exactly when
the incremented value is 1 — i.e. when the pre-value is 0 or the key is
absent, not only on the absent→1 transition — and is untouched by
increments from a value ≥ 1; a decrement of an absent or zero counter
is a no-op, so the counter never goes below zero. -/
theorem C7_wait_counter_roundtrip (st : WaitCounter) (maxWait ttlArg : Nat) :
    ((incrementWait st maxWait ttlArg).1 = true ↔ st.value.getD 0 < maxWait) ∧
    (st.value.getD 0 < maxWait →
      (decrementWait (incrementWait st maxWait ttlArg).2).value.getD 0
        = st.value.getD 0) ∧
    ((incrementWait st maxWait ttlArg).1 = true →
      (incrementWait st maxWait ttlArg).2.ttl
        = (if st.value.getD 0 = 0 then some ttlArg else st.ttl)) ∧
    ((incrementWait st maxWait ttlArg).1 = false →
      (incrementWait st maxWait ttlArg).2 = st) ∧
    (st.value = none ∨ st.value = some 0 → decrementWait st = st) ∧
    (decrementWait st).value.getD 0 = st.value.getD 0 - 1 := by
  refine ⟨?_, ?_, ?_, ?_, ?_, ?_⟩
  · unfold incrementWait
    by_cases h : maxWait ≤ st.value.getD 0
    · simp [if_pos h]
      omega
    · simp [if_neg h]
      omega
  · intro h
    unfold incrementWait
    rw [if_neg (by omega)]
    simp [decrementWait]
  · intro h
    unfold incrementWait at h ⊢
    by_cases hm : maxWait ≤ st.value.getD 0
    · simp [if_pos hm] at h
    · simp only [if_neg hm]
      by_cases h0 : st.value.getD 0 = 0
      · simp [h0]
      · simp [h0, if_neg (by omega : ¬ (st.value.getD 0 + 1 = 1))]
  · intro h
    unfold incrementWait at h ⊢
    by_cases hm : maxWait ≤ st.value.getD 0
    · simp [if_pos hm]
    · simp [if_neg hm] at h
  · rintro (h | h) <;> simp [decrementWait, h]
  · rcases hv : st.value with _ | v
    · simp [decrementWait, hv]
    · by_cases h0 : 0 < v
      · simp [decrementWait, hv, h0]
      · simp [decrementWait, hv, h0]
        omega

/-- Witness for C7 at the counter value 2 with maxWait 10. -/
theorem C7_witness :
    ((incrementWait ⟨some 2, some 5⟩ 10 7).1 = true ↔
      (⟨some 2, some 5⟩ : WaitCounter).value.getD 0 < 10) ∧
    ((⟨some 2, some 5⟩ : WaitCounter).value.getD 0 < 10 →
      (decrementWait (incrementWait ⟨some 2, some 5⟩ 10 7).2).value.getD 0
        = (⟨some 2, some 5⟩ : WaitCounter).value.getD 0) ∧
    ((incrementWait ⟨some 2, some 5⟩ 10 7).1 = true →
      (incrementWait ⟨some 2, some 5⟩ 10 7).2.ttl
        = (if (⟨some 2, some 5⟩ : WaitCounter).value.getD 0 = 0 then some 7
           else (⟨some 2, some 5⟩ : WaitCounter).ttl)) ∧
    ((incrementWait ⟨some 2, some 5⟩ 10 7).1 = false →
      (incrementWait ⟨some 2, some 5⟩ 10 7).2 = ⟨some 2, some 5⟩) ∧
    ((⟨some 2, some 5⟩ : WaitCounter).value = none ∨
        (⟨some 2, some 5⟩ : WaitCounter).value = some 0 →
      decrementWait ⟨some 2, some 5⟩ = ⟨some 2, some 5⟩) ∧
    (decrementWait ⟨some 2, some 5⟩).value.getD 0
      = (⟨some 2, some 5⟩ : WaitCounter).value.getD 0 - 1 :=
  C7_wait_counter_roundtrip ⟨some 2, some 5⟩ 10 7

/-- C8: the session mutex is a set-if-absent cell — an acquire succeeds
iff it is unheld, a successful acquire installs the caller's requestID,
a failed acquire leaves the holder unchanged; a release removes the
holder exactly when it equals the caller's requestID and is a no-op for
any non-holder.  At most one requestID occupies the cell at any
instant by construction of the single scalar key. -/
theorem C8_session_mutex_exclusive (holder : Option String) (r r' : String) :
    ((acquireSessionMutex holder r).1 = true ↔ holder = none) ∧
    (acquireSessionMutex holder r).2 = (if holder = none then some r else holder) ∧
    releaseSessionMutex (some r) r = none ∧
    (holder ≠ some r' → releaseSessionMutex holder r' = holder) := by
  refine ⟨?_, ?_, ?_, ?_⟩
  · cases holder <;> simp [acquireSessionMutex]
  · cases holder <;> simp [acquireSessionMutex]
  · simp [releaseSessionMutex]
  · intro h
    cases holder with
    | none => simp [releaseSessionMutex]
    | some x =>
        have : x ≠ r' := fun hx => h (by rw [hx])
        simp [releaseSessionMutex, this]

/-- Witness for C8 with holder "aaaa" and callers "bbbb" / "aaaa". -/
theorem C8_witness :
    ((acquireSessionMutex (some "aaaa") "bbbb").1 = true ↔ some "aaaa" = none) ∧
    (acquireSessionMutex (some "aaaa") "bbbb").2
      = (if (some "aaaa" : Option String) = none then some "bbbb" else some "aaaa") ∧
    releaseSessionMutex (some "bbbb") "bbbb" = none ∧
    (some "aaaa" ≠ some "bbbb" →
      releaseSessionMutex (some "aaaa") "bbbb" = some "aaaa") :=
  C8_session_mutex_exclusive (some "aaaa") "bbbb" "bbbb"

/-- C3 (counterexample): with configured maxRPM = 0 and a current RPM
of 4, `WaitForRPMSlot` does not return immediately — it waits a full
60 s window (oldest request just recorded). -/
theorem C3_counterexample :
    waitForRPMSlot 0 4 1000000 1000000 = .wait 60000 ∧
    RPMWaitDecision.wait 60000 ≠ .noWait := by
  decide

/-- C3 (amended): a non-positive configured maxRPM is not a skip — it
falls back to the default limit `defaultAccountMaxRPM = 4`, and the
function behaves exactly as if maxRPM were 4: it returns immediately
when the current RPM is below 4 and otherwise waits. -/
theorem C3_rpm_zero_uses_default (maxRPM currentRPM oldestTimeMs nowMs : Int)
    (h : maxRPM ≤ 0) :
    waitForRPMSlot maxRPM currentRPM oldestTimeMs nowMs
      = waitForRPMSlot defaultAccountMaxRPM currentRPM oldestTimeMs nowMs ∧
    defaultAccountMaxRPM = 4 ∧
    (currentRPM < 4 →
      waitForRPMSlot maxRPM currentRPM oldestTimeMs nowMs = .noWait) := by
  have hd : ¬ (defaultAccountMaxRPM ≤ 0) := by decide
  refine ⟨?_, by decide, ?_⟩
  · unfold waitForRPMSlot
    rw [if_pos h, if_neg hd]
  · intro hc
    unfold waitForRPMSlot
    rw [if_pos h]
    rw [if_pos (show currentRPM < defaultAccountMaxRPM from hc)]

/-- Witness for C3 (amended) at maxRPM = 0, currentRPM = 2. -/
theorem C3_witness :
    waitForRPMSlot 0 2 500 700 = waitForRPMSlot defaultAccountMaxRPM 2 500 700 ∧
    defaultAccountMaxRPM = 4 ∧
    ((2 : Int) < 4 → waitForRPMSlot 0 2 500 700 = .noWait) :=
  C3_rpm_zero_uses_default 0 2 500 700 (by decide)

/-- C10: a model name containing none of "opus", "sonnet", "haiku" is
classified as the empty category; `AcquireSessionSlot` then uses the
whole slot pool `[0, T)` and `maxParallel = 9999` — the same treatment
as the light family and unlike the strictly serial `maxParallel = 1` of
the heavy/medium categories. -/
theorem C10_unrecognized_like_light (model : List Nat)
    (h1 : containsSubstring model (strBytes "opus") = false)
    (h2 : containsSubstring model (strBytes "sonnet") = false)
    (h3 : containsSubstring model (strBytes "haiku") = false) :
    GetModelCategory model = "" ∧
    (∀ T : Int, modelSlotRangeFor (GetModelCategory model) T = ⟨0, T⟩) ∧
    maxParallelFor (GetModelCategory model) = 9999 ∧
    maxParallelFor "haiku" = 9999 ∧
    maxParallelFor "opus" = 1 ∧ maxParallelFor "sonnet" = 1 := by
  have hcat : GetModelCategory model = "" := by
    unfold GetModelCategory
    rw [h1, h2, h3]
    simp
  refine ⟨hcat, ?_, ?_, by decide, by decide, by decide⟩
  · intro T
    rw [hcat]
    rfl
  · rw [hcat]
    rfl

/-- Witness for C10 at the model name "gpt-4o-mini". -/
theorem C10_witness :
    GetModelCategory (strBytes "gpt-4o-mini") = "" ∧
    (∀ T : Int,
      modelSlotRangeFor (GetModelCategory (strBytes "gpt-4o-mini")) T = ⟨0, T⟩) ∧
    maxParallelFor (GetModelCategory (strBytes "gpt-4o-mini")) = 9999 ∧
    maxParallelFor "haiku" = 9999 ∧
    maxParallelFor "opus" = 1 ∧ maxParallelFor "sonnet" = 1 :=
  C10_unrecognized_like_light (strBytes "gpt-4o-mini") (by decide) (by decide)
    (by decide)

/-- Witness for C6 at C = 3 (T = 4): total slots 4, heavy = [0, 2),
medium = [2, 4). -/
theorem C6_witness :
    (4 * 3 ≤ 3 * CalculateTotalSlots 3 ∧
      ∀ T' : Int, 4 * 3 ≤ 3 * T' → CalculateTotalSlots 3 ≤ T') ∧
    (2 ≤ (4 : Int) → ∃ m : Int, 2 * m ≤ 4 ∧ 4 < 2 * m + 2 ∧
      CalculateModelSlotRange 4 = (⟨0, m⟩, ⟨m, 4⟩)) ∧
    CalculateModelSlotRange 1 = (⟨0, 1⟩, ⟨0, 1⟩) ∧
    ((CalculateModelSlotRange 4).1.start < (CalculateModelSlotRange 4).1.stop ∧
      (CalculateModelSlotRange 4).2.start < (CalculateModelSlotRange 4).2.stop) :=
  C6_slot_sizing_and_range_split 3 4 (by decide) (by decide)
